import Mathlib

/-!
# Memoradical: a shallow embedding of the card scheduler, stats and storage

This file embeds, in Lean, the parts of the Memoradical flashcard
application (src/main.rs, src/components.rs, src/localstore.rs) that its
specification talks about: the adaptive card selector `Model::choose_card`,
the `Msg::DeleteCard` and `Msg::StoreNewCards` update handlers, the
statistics aggregates of `Model::stats_html` and of the `Stats` function
component, and `LocalStore::save`.

Modelling conventions:
* `f32`/`f64` arithmetic is idealised over `ℚ`.
* The thread rng is made explicit: the Beta(shape1, shape2) sample taken
  per card is an argument `beta : Nat → Nat → ℚ` (Beta samples lie in
  `[0, 1]`), and the uniform draw in `[0, total_weight)` used by
  `WeightedIndex::sample` is an argument `x : ℚ`.
* A Rust panic (an `unwrap` of an `Err`) is modelled as `Except.error`.
* Browser local storage is an explicit `Option String` (the contents at
  the relevant key, `none` when absent), and the Sha256 hex digest used by
  `LocalStore` is an explicit function argument `hash : String → String`.
-/

namespace Memoradical

/-- Rust's `struct Card` (src/main.rs lines 67-75): prompt/response text
plus forward and reverse hit/miss counters; the reverse counters are
optional (`None` is read as 0 via `unwrap_or_default`). -/
structure Card where
  prompt : String
  response : String
  hits : Nat
  misses : Nat
  reverse_hits : Option Nat
  reverse_misses : Option Nat
  deriving DecidableEq, Repr

/-- The fields of Rust's `struct Model` (src/main.rs lines 105-129) that
the scheduler, the delete handler and the import handler read or write.
UI-only fields (node refs, timers, text buffers, readers, visible face)
are omitted.  `display_history` is the `LinkedList<usize>` of recently
shown card positions, front = oldest. -/
structure Model where
  cards : List Card
  choose_missed : Bool
  choose_neglected : Bool
  current_card : Option Nat
  deletion_target : Option Nat
  display_history : List Nat
  reverse_mode : Bool
  upload_error : Option String
  deriving DecidableEq, Repr

/-- The initial weight vector of `Model::choose_card` (src/main.rs lines
209-235): with `choose_missed`, each card index in the history set gets
weight 0 and every other card gets a Beta(misses+1, hits+1) sample
(reverse counters when `reverse_mode`); without `choose_missed`, every
card gets 0.0 when `choose_neglected` is set, else 1.0. -/
def baseWeights (m : Model) (beta : Nat → Nat → ℚ) : List ℚ :=
  if m.choose_missed then
    m.cards.enum.map (fun p =>
      if p.1 ∈ m.display_history then 0
      else
        beta ((if m.reverse_mode then p.2.reverse_misses.getD 0 else p.2.misses) + 1)
             ((if m.reverse_mode then p.2.reverse_hits.getD 0 else p.2.hits) + 1))
  else
    List.replicate m.cards.length (if m.choose_neglected then 0 else 1)

/-- The final weight vector of `Model::choose_card` (src/main.rs lines
209-245): when `choose_neglected` is set, `1/n_visits` (or 1.0 for an
unvisited card) is added to every weight, where `n_visits` always uses the
forward counters `hits + misses`. -/
def weightsOf (m : Model) (beta : Nat → Nat → ℚ) : List ℚ :=
  if m.choose_neglected then
    List.zipWith
      (fun w c =>
        w + (if c.hits + c.misses = 0 then 1 else 1 / ((c.hits + c.misses : ℕ) : ℚ)))
      (baseWeights m beta) m.cards
  else baseWeights m beta

/-- The per-index value of the weight vector, used to state pointwise
facts about `weightsOf`. -/
def weightAt (m : Model) (beta : Nat → Nat → ℚ) (i : Nat) (c : Card) : ℚ :=
  (if m.choose_missed then
     (if i ∈ m.display_history then 0
      else
        beta ((if m.reverse_mode then c.reverse_misses.getD 0 else c.misses) + 1)
             ((if m.reverse_mode then c.reverse_hits.getD 0 else c.hits) + 1))
   else if m.choose_neglected then 0 else 1)
  + (if m.choose_neglected then
       (if c.hits + c.misses = 0 then 1 else 1 / ((c.hits + c.misses : ℕ) : ℚ))
     else 0)

/-- Sampling from rand's `WeightedIndex` built over `ws`: the rng draws a
value `x` uniformly from `[0, total_weight)` and the returned index is the
first one whose cumulative weight strictly exceeds `x`. -/
def sampleWeighted : List ℚ → ℚ → Nat
  | [], _ => 0
  | w :: ws, x => if x < w then 0 else sampleWeighted ws (x - w) + 1

/-- Rust's `Model::choose_card` (src/main.rs lines 206-248).  The code
runs `WeightedIndex::new(&weights).unwrap()` and samples the result;
`WeightedIndex::new` returns `Err` — so the `unwrap` panics — when the
weight list is empty (`NoItem`), when some weight is negative
(`InvalidWeight`), or when the total weight is zero (`AllWeightsZero`).
The panic is modelled as `Except.error` with the corresponding error
name. -/
def choose_card (m : Model) (beta : Nat → Nat → ℚ) (x : ℚ) : Except String Nat :=
  if weightsOf m beta = [] then Except.error ("NoItem")
  else if ∃ w ∈ weightsOf m beta, w < 0 then Except.error ("InvalidWeight")
  else if (weightsOf m beta).sum = 0 then Except.error ("AllWeightsZero")
  else Except.ok (sampleWeighted (weightsOf m beta) x)

/-- The `Msg::DeleteCard(i)` handler (src/main.rs lines 590-607).  A first
press on position `i` only arms `deletion_target`; a second press on the
same position remaps `current_card` (`Equal` → `None`, `Greater` →
`curr - 1`, `Less` → unchanged), clears `display_history`, removes the
card (`Vec::remove(i)`, which panics when `i` is out of range — callers
pass the index of an existing row) and disarms `deletion_target`.  The
`Msg::StoreCards` persistence message it sends only touches local
storage, not the model. -/
def deleteCard (m : Model) (i : Nat) : Model :=
  if m.deletion_target = some i then
    { m with
      current_card :=
        match m.current_card with
        | none => none
        | some curr =>
          if curr = i then none
          else if i < curr then some (curr - 1)
          else some curr
      display_history := []
      cards := m.cards.eraseIdx i
      deletion_target := none }
  else
    { m with deletion_target := some i }

/-- The `Msg::StoreNewCards(json)` handler (src/main.rs lines 750-766),
parametrised by the `serde_json::from_str::<Vec<Card>>` parse of the
uploaded text.  On a parse error the handler sends
`Msg::SetUploadError(Some(format!(...)))`, whose processing stores the
message in `upload_error`, and changes nothing else; on success it
replaces the whole card collection (leaving `display_history` as it is)
and re-derives `current_card` with a fresh `choose_card` call, whose
unwrap panic propagates as `Except.error`.  The `LocalStorage::set`
persistence call does not touch the model. -/
def storeNewCards (parse : String → Except String (List Card))
    (beta : Nat → Nat → ℚ) (x : ℚ) (m : Model) (json : String) :
    Except String Model :=
  match parse json with
  | Except.error e => Except.ok { m with upload_error := some e }
  | Except.ok cards =>
    match choose_card { m with cards := cards } beta x with
    | Except.error err => Except.error err
    | Except.ok c =>
      Except.ok { m with cards := cards, current_card := some c }

/-- Rust's `struct LocalStore` (src/localstore.rs lines 5-9): the cached
value at `key` together with the Sha256 hex checksum recorded at the last
load/save. -/
structure LocalStore where
  checksum : String
  key : String
  value : String
  deriving DecidableEq, Repr

/-- Rust's `LocalStore::save` (src/localstore.rs lines 37-52), with the
Sha256 hex digest as the function argument `hash` and `store` the current
contents of local storage at `self.key` (`none` when the key is absent,
in which case the initial `LocalStorage::get` fails and the `?` operator
returns that error).  The result pairs the contents of local storage
after the call with the `Ok`/`Err` outcome carrying the updated
`LocalStore`. -/
def LocalStore.save (hash : String → String) (store : Option String)
    (s : LocalStore) (value : String) :
    Option String × Except String LocalStore :=
  match store with
  | none => (store, Except.error ("getting stored value"))
  | some data =>
    if hash data = s.checksum then
      (some value, Except.ok { s with value := value, checksum := hash value })
    else
      (store,
        Except.error ("local storage has been changed since last loaded (from:"
          ++ s.checksum ++ " to:" ++ hash data ++ ")"))

/-- Rust's `fn mean` (src/main.rs lines 131-137, identical in
src/components.rs lines 7-13), over ℚ: 0 for an empty slice, else sum
divided by length. -/
def mean (x : List ℚ) : ℚ :=
  if x = [] then 0 else x.sum / (x.length : ℚ)

/-- The `hits_misses` closure of the stats code (src/main.rs lines
274-283, src/components.rs lines 31-40): the direction-specific
(hits, misses) pair selected by `reverse_mode`. -/
def hits_misses (rev : Bool) (c : Card) : Nat × Nat :=
  if rev then (c.reverse_hits.getD 0, c.reverse_misses.getD 0)
  else (c.hits, c.misses)

/-- The `goodness` closure (src/main.rs lines 296-305, src/components.rs
lines 53-62): (hits − misses)/(hits + misses) over the direction-specific
counts, 0 for an unvisited card. -/
def goodness (rev : Bool) (c : Card) : ℚ :=
  if (hits_misses rev c).1 + (hits_misses rev c).2 = 0 then 0
  else (((hits_misses rev c).1 : ℚ) - ((hits_misses rev c).2 : ℚ))
    / (((hits_misses rev c).1 : ℚ) + ((hits_misses rev c).2 : ℚ))

/-- The sorting step `cards.sort_by(goodness descending)` of the stats
code (src/main.rs line 306, src/components.rs line 63): a stable sort
putting larger goodness first. -/
def sortByGoodness (rev : Bool) (cards : List Card) : List Card :=
  cards.mergeSort (fun a b => decide (goodness rev b ≤ goodness rev a))

/-- The "Overall score" figure displayed by `Model::stats_html`
(src/main.rs line 372): the mean of the goodness column of the sorted
table, with no factor of 100. -/
def overall_score_main (rev : Bool) (cards : List Card) : ℚ :=
  mean ((sortByGoodness rev cards).map (goodness rev))

/-- The "Cards known well" percentage of `Model::stats_html` (src/main.rs
lines 345-361): among all cards, the fraction with more than one
direction-specific response and goodness strictly greater than the
hardcoded 0.95, times 100. -/
def percent_good_main (rev : Bool) (cards : List Card) : ℚ :=
  100 *
    (if (sortByGoodness rev cards).map (goodness rev) = [] then 0
     else
       ((((sortByGoodness rev cards).map (goodness rev)).zip (sortByGoodness rev cards)).countP
           (fun p =>
             decide (1 < (hits_misses rev p.2).1 + (hits_misses rev p.2).2) &&
             decide ((19 : ℚ) / 20 < p.1)) : ℚ)
         / ((((sortByGoodness rev cards).map (goodness rev)).length : ℕ) : ℚ))

/-- The `Stats` function component (src/components.rs lines 23-161)
returns early with a "There are no cards." message on an empty
collection; otherwise it computes (overall score, known-well percentage)
as `(100 × mean(goodnesses), 100 × fraction)` where the known-well test is
more than one direction-specific response and goodness ≥
`GOODNESS_CRITERION`.  That constant is imported from a crate root that is
not among the sources; following the spec, which treats the threshold as
a configurable parameter, it is the argument `crit`. -/
def stats_components (rev : Bool) (crit : ℚ) (cards : List Card) :
    Option (ℚ × ℚ) :=
  if cards = [] then none
  else
    some
      (100 * mean ((sortByGoodness rev cards).map (goodness rev)),
       100 *
         (if (sortByGoodness rev cards).map (goodness rev) = [] then 0
          else
            ((((sortByGoodness rev cards).map (goodness rev)).zip
                  (sortByGoodness rev cards)).countP
                (fun p =>
                  decide (1 < (hits_misses rev p.2).1 + (hits_misses rev p.2).2) &&
                  decide (crit ≤ p.1)) : ℚ)
              / ((((sortByGoodness rev cards).map (goodness rev)).length : ℕ) : ℚ)))

/-- The specification's formula for the overall score (spec section 4.2):
100 × mean(goodness) across all cards, unvisited cards contributing
goodness 0.  Stated from the spec's words, for comparison with the
source-derived definitions. -/
def specOverallScore (rev : Bool) (cards : List Card) : ℚ :=
  100 * mean (cards.map (goodness rev))

/-- The specification's formula for percentKnownWell (spec section 4.2):
100 × count(card where visits > 1 and goodness ≥ threshold) / totalCards,
with the empty collection yielding 0.  Stated from the spec's words, for
comparison with the source-derived definitions. -/
def specPercentKnownWell (rev : Bool) (crit : ℚ) (cards : List Card) : ℚ :=
  if cards = [] then 0
  else
    100 *
      ((cards.countP (fun c =>
          decide (1 < (hits_misses rev c).1 + (hits_misses rev c).2) &&
          decide (crit ≤ goodness rev c)) : ℚ)
        / ((cards.length : ℕ) : ℚ))

/-- A never-shown card, used in concrete scenarios. -/
def exampleCard : Card :=
  { prompt := "front", response := "back", hits := 0, misses := 0,
    reverse_hits := none, reverse_misses := none }

/-- A card with one hit and no misses (goodness 1). -/
def cardHit1 : Card :=
  { prompt := "front", response := "back", hits := 1, misses := 0,
    reverse_hits := none, reverse_misses := none }

/-- A card with 39 hits and 1 miss: goodness is exactly 38/40 = 0.95. -/
def card95 : Card :=
  { prompt := "front", response := "back", hits := 39, misses := 1,
    reverse_hits := none, reverse_misses := none }

/-- A concrete stand-in for the Beta sampler: every draw returns 1. -/
def betaOne : Nat → Nat → ℚ := fun _ _ => 1

/-- A two-card model whose history window covers every position, with
preferMissed on and preferNeglected off: every weight is 0. -/
def allHistoryModel : Model :=
  { cards := [exampleCard, exampleCard], choose_missed := true,
    choose_neglected := false, current_card := none, deletion_target := none,
    display_history := [0, 1], reverse_mode := false, upload_error := none }

/-- A model with no cards at all. -/
def emptyModel : Model :=
  { cards := [], choose_missed := true, choose_neglected := false,
    current_card := none, deletion_target := none, display_history := [],
    reverse_mode := false, upload_error := none }

/-- A one-card model with both preference flags off (weight vector [1]). -/
def oneCardModel : Model :=
  { cards := [exampleCard], choose_missed := false, choose_neglected := false,
    current_card := none, deletion_target := none, display_history := [],
    reverse_mode := false, upload_error := none }

/-- A two-card model with both preference flags off and position 0 in the
history window: the history is ignored and both weights are 1. -/
def historyDrawModel : Model :=
  { cards := [exampleCard, exampleCard], choose_missed := false,
    choose_neglected := false, current_card := none, deletion_target := none,
    display_history := [0], reverse_mode := false, upload_error := none }

/-- A two-card model with preferMissed on, preferNeglected off and
position 0 in the history window: weights are [0, beta-sample]. -/
def exclusionModel : Model :=
  { cards := [exampleCard, exampleCard], choose_missed := true,
    choose_neglected := false, current_card := some 1, deletion_target := none,
    display_history := [0], reverse_mode := false, upload_error := none }

/-- A two-card model about to receive an import, with a non-empty history
window. -/
def importModel : Model :=
  { cards := [exampleCard, exampleCard], choose_missed := false,
    choose_neglected := false, current_card := some 1, deletion_target := none,
    display_history := [0], reverse_mode := false, upload_error := none }

/-- The model after importing the one-card deck into `importModel`: the
collection is replaced, the current position re-derived, and the stale
history entry still present. -/
def importedModel : Model :=
  { cards := [cardHit1], choose_missed := false, choose_neglected := false,
    current_card := some 0, deletion_target := none, display_history := [0],
    reverse_mode := false, upload_error := none }

/-- A three-card model with the deletion of position 1 already armed and
current position 2. -/
def deleteModel : Model :=
  { cards := [exampleCard, exampleCard, exampleCard], choose_missed := true,
    choose_neglected := false, current_card := some 2,
    deletion_target := some 1, display_history := [0],
    reverse_mode := false, upload_error := none }

/-- A two-card model with no deletion armed. -/
def armModel : Model :=
  { cards := [exampleCard, exampleCard], choose_missed := true,
    choose_neglected := false, current_card := some 1,
    deletion_target := none, display_history := [0],
    reverse_mode := false, upload_error := none }

/-- A stand-in digest function for concrete `LocalStore` scenarios. -/
def idHash : String → String := fun t => t

/-- A concrete `LocalStore` whose checksum matches the stored value under
`idHash`. -/
def demoStore : LocalStore :=
  { checksum := "abc", key := "cards-key", value := "abc" }

theorem baseWeights_length (m : Model) (beta : Nat → Nat → ℚ) :
    (baseWeights m beta).length = m.cards.length := by
  unfold baseWeights
  split
  · simp [List.enum_length]
  · simp

theorem weightsOf_length (m : Model) (beta : Nat → Nat → ℚ) :
    (weightsOf m beta).length = m.cards.length := by
  unfold weightsOf
  split
  · simp [List.length_zipWith, baseWeights_length]
  · exact baseWeights_length m beta

theorem weightsOf_getD (m : Model) (beta : Nat → Nat → ℚ) (i : Nat)
    (hc : i < m.cards.length) :
    (weightsOf m beta).getD i 0 = weightAt m beta i (m.cards.get ⟨i, hc⟩) := by
  have hb : i < (baseWeights m beta).length := by
    rw [baseWeights_length]; exact hc
  have hbase : (baseWeights m beta).getD i 0 =
      (if m.choose_missed then
         (if i ∈ m.display_history then 0
          else
            beta ((if m.reverse_mode then (m.cards.get ⟨i, hc⟩).reverse_misses.getD 0
                   else (m.cards.get ⟨i, hc⟩).misses) + 1)
                 ((if m.reverse_mode then (m.cards.get ⟨i, hc⟩).reverse_hits.getD 0
                   else (m.cards.get ⟨i, hc⟩).hits) + 1))
       else if m.choose_neglected then 0 else 1) := by
    by_cases hm : m.choose_missed
    · unfold baseWeights
      rw [if_pos hm, if_pos hm]
      rw [List.getD_eq_getElem _ _ (by simpa [List.enum_length] using hc)]
      simp [List.getElem_map, List.getElem_enum, List.get_eq_getElem]
    · unfold baseWeights
      rw [if_neg hm, if_neg hm]
      rw [List.getD_eq_getElem _ _ (by simpa using hc)]
      simp [List.getElem_replicate]
  by_cases hn : m.choose_neglected
  · unfold weightsOf
    rw [if_pos hn]
    rw [List.getD_eq_getElem _ _ (by
      simpa [List.length_zipWith, baseWeights_length] using hc)]
    rw [List.getElem_zipWith]
    unfold weightAt
    rw [← List.getD_eq_getElem _ 0 hb, hbase]
    simp [hn, List.get_eq_getElem]
  · unfold weightsOf weightAt
    rw [if_neg hn, hbase]
    simp only [if_neg hn, add_zero]

theorem weightAt_nonneg (m : Model) (beta : Nat → Nat → ℚ) (i : Nat) (c : Card)
    (hbeta : ∀ a b, 0 ≤ beta a b) : 0 ≤ weightAt m beta i c := by
  unfold weightAt
  have h1 : (0:ℚ) ≤
      (if m.choose_missed then
         (if i ∈ m.display_history then 0
          else
            beta ((if m.reverse_mode then c.reverse_misses.getD 0 else c.misses) + 1)
                 ((if m.reverse_mode then c.reverse_hits.getD 0 else c.hits) + 1))
       else if m.choose_neglected then 0 else 1) := by
    split
    · split
      · exact le_refl 0
      · exact hbeta _ _
    · split
      · exact le_refl 0
      · exact zero_le_one
  have h2 : (0:ℚ) ≤
      (if m.choose_neglected then
         (if c.hits + c.misses = 0 then 1 else 1 / ((c.hits + c.misses : ℕ) : ℚ))
       else 0) := by
    split
    · split
      · exact zero_le_one
      · positivity
    · exact le_refl 0
  exact add_nonneg h1 h2

theorem weightsOf_nonneg (m : Model) (beta : Nat → Nat → ℚ)
    (hbeta : ∀ a b, 0 ≤ beta a b) :
    ∀ w ∈ weightsOf m beta, 0 ≤ w := by
  intro w hmem
  rw [List.mem_iff_getElem] at hmem
  obtain ⟨n, hn, rfl⟩ := hmem
  have hc : n < m.cards.length := by rw [← weightsOf_length m beta]; exact hn
  rw [← List.getD_eq_getElem _ 0 hn, weightsOf_getD m beta n hc]
  exact weightAt_nonneg m beta n _ hbeta

theorem sampleWeighted_ne (ws : List ℚ) (x : ℚ) (i : Nat)
    (hnn : ∀ w ∈ ws, 0 ≤ w) (hx0 : 0 ≤ x) (hxs : x < ws.sum)
    (hi : i < ws.length) (hz : ws.getD i 1 = 0) :
    sampleWeighted ws x ≠ i := by
  induction ws generalizing x i with
  | nil => simp at hi
  | cons w t ih =>
    unfold sampleWeighted
    by_cases hxw : x < w
    · rw [if_pos hxw]
      intro h0
      cases i with
      | zero =>
        simp [List.getD] at hz
        rw [hz] at hxw
        exact absurd (lt_of_le_of_lt hx0 hxw) (lt_irrefl 0)
      | succ j => exact Nat.noConfusion h0
    · rw [if_neg hxw]
      cases i with
      | zero => simp
      | succ j =>
        have hx0' : 0 ≤ x - w := by
          have := not_lt.mp hxw
          linarith
        have hxs' : x - w < t.sum := by
          rw [List.sum_cons] at hxs
          linarith
        have hj : j < t.length := by
          simpa using hi
        have hz' : t.getD j 1 = 0 := by
          simpa [List.getD] using hz
        have := ih (x - w) j (fun v hv => hnn v (List.mem_cons_of_mem w hv))
          hx0' hxs' hj hz'
        intro hcontra
        exact this (Nat.succ_injective hcontra)

theorem choose_card_eq_ok (m : Model) (beta : Nat → Nat → ℚ) (x : ℚ)
    (hne : weightsOf m beta ≠ [])
    (hnn : ∀ w ∈ weightsOf m beta, 0 ≤ w)
    (hs : (weightsOf m beta).sum ≠ 0) :
    choose_card m beta x = Except.ok (sampleWeighted (weightsOf m beta) x) := by
  unfold choose_card
  rw [if_neg hne]
  rw [if_neg (by
    rintro ⟨w, hw, hlt⟩
    exact absurd hlt (not_lt.mpr (hnn w hw)))]
  rw [if_neg hs]

theorem choose_card_all_zero (m : Model) (beta : Nat → Nat → ℚ) (x : ℚ)
    (hne : weightsOf m beta ≠ [])
    (hz : ∀ w ∈ weightsOf m beta, w = 0) :
    choose_card m beta x = Except.error ("AllWeightsZero") := by
  unfold choose_card
  rw [if_neg hne]
  rw [if_neg (by
    rintro ⟨w, hw, hlt⟩
    rw [hz w hw] at hlt
    exact absurd hlt (lt_irrefl 0))]
  rw [if_pos (List.sum_eq_zero hz)]

theorem choose_card_empty (m : Model) (beta : Nat → Nat → ℚ) (x : ℚ)
    (hc : m.cards = []) :
    choose_card m beta x = Except.error ("NoItem") := by
  have : weightsOf m beta = [] := by
    have := weightsOf_length m beta
    rw [hc] at this
    simpa using List.length_eq_zero.mp (by simpa using this)
  unfold choose_card
  rw [if_pos this]

theorem sortByGoodness_perm (rev : Bool) (cards : List Card) :
    (sortByGoodness rev cards).Perm cards :=
  List.mergeSort_perm cards _

theorem mean_perm {l1 l2 : List ℚ} (h : l1.Perm l2) : mean l1 = mean l2 := by
  unfold mean
  by_cases h1 : l1 = []
  · have h2 : l2 = [] := by
      subst h1
      exact (List.Perm.eq_nil h.symm)
    rw [h1, h2]
  · have h2 : l2 ≠ [] := by
      intro hl
      exact h1 (List.Perm.eq_nil (hl ▸ h))
    rw [if_neg h1, if_neg h2, h.sum_eq, h.length_eq]

theorem countP_zip_map (f : Card → ℚ) (p : ℚ × Card → Bool) (l : List Card) :
    ((l.map f).zip l).countP p = l.countP (fun c => p (f c, c)) := by
  induction l with
  | nil => rfl
  | cons c t ih =>
    simp only [List.map_cons, List.zip_cons_cons, List.countP_cons, ih]

theorem overall_score_main_eq (rev : Bool) (cards : List Card) :
    overall_score_main rev cards = mean (cards.map (goodness rev)) := by
  unfold overall_score_main
  exact mean_perm ((sortByGoodness_perm rev cards).map (goodness rev))

theorem percent_good_main_eq (rev : Bool) (cards : List Card) :
    percent_good_main rev cards =
      (if cards = [] then 0
       else
         100 * ((cards.countP (fun c =>
             decide (1 < (hits_misses rev c).1 + (hits_misses rev c).2) &&
             decide ((19 : ℚ) / 20 < goodness rev c)) : ℚ)
           / ((cards.length : ℕ) : ℚ))) := by
  unfold percent_good_main
  by_cases hc : cards = []
  · subst hc
    simp [sortByGoodness]
  · have hperm := sortByGoodness_perm rev cards
    have hne : (sortByGoodness rev cards).map (goodness rev) ≠ [] := by
      simp only [ne_eq, List.map_eq_nil_iff]
      intro h
      exact hc (List.Perm.eq_nil (h ▸ hperm.symm))
    rw [if_neg hne, if_neg hc]
    rw [countP_zip_map (goodness rev)
      (fun p =>
        decide (1 < (hits_misses rev p.2).1 + (hits_misses rev p.2).2) &&
        decide ((19 : ℚ) / 20 < p.1)) (sortByGoodness rev cards)]
    rw [List.Perm.countP_eq _ hperm, List.length_map, hperm.length_eq]

theorem stats_components_eq (rev : Bool) (crit : ℚ) (cards : List Card)
    (hc : cards ≠ []) :
    stats_components rev crit cards =
      some (specOverallScore rev cards, specPercentKnownWell rev crit cards) := by
  unfold stats_components specOverallScore specPercentKnownWell
  rw [if_neg hc, if_neg hc]
  have hperm := sortByGoodness_perm rev cards
  have hne : (sortByGoodness rev cards).map (goodness rev) ≠ [] := by
    simp only [ne_eq, List.map_eq_nil_iff]
    intro h
    exact hc (List.Perm.eq_nil (h ▸ hperm.symm))
  rw [if_neg hne]
  rw [countP_zip_map (goodness rev)
    (fun p =>
      decide (1 < (hits_misses rev p.2).1 + (hits_misses rev p.2).2) &&
      decide (crit ≤ p.1)) (sortByGoodness rev cards)]
  rw [List.Perm.countP_eq _ hperm, List.length_map, hperm.length_eq]
  rw [mean_perm (hperm.map (goodness rev))]

theorem allHistoryModel_weights : weightsOf allHistoryModel betaOne = [0, 0] := by
  decide

theorem historyDrawModel_weights : weightsOf historyDrawModel betaOne = [1, 1] := by
  decide

theorem oneCardModel_weights : weightsOf oneCardModel betaOne = [1] := by
  decide

theorem exclusionModel_weights : weightsOf exclusionModel betaOne = [0, 1] := by
  decide

theorem importModel_choose :
    choose_card { importModel with cards := [cardHit1] } betaOne 0 =
      Except.ok 0 := by
  have hw : weightsOf { importModel with cards := [cardHit1] } betaOne = [1] := by
    decide
  unfold choose_card
  rw [hw, if_neg (by simp), if_neg (by norm_num), if_neg (by norm_num)]
  simp [sampleWeighted]

/-- Claim C1 counterexample: with both positions of a two-card collection
in the history window, preferMissed on and preferNeglected off, every
weight is 0 and choose_card fails with the AllWeightsZero panic rather
than falling back to a uniform draw. -/
theorem C1_counterexample :
    weightsOf allHistoryModel betaOne = [0, 0] ∧
    choose_card allHistoryModel betaOne 0 = Except.error ("AllWeightsZero") := by
  constructor
  · exact allHistoryModel_weights
  · unfold choose_card
    rw [allHistoryModel_weights, if_neg (by simp), if_neg (by norm_num),
      if_pos (by norm_num)]

/-- Claim C1 (amended): whenever the collection is non-empty and every
computed weight is 0, choose_card does not fall back to a uniform draw:
WeightedIndex::new returns AllWeightsZero and the unwrap panics. -/
theorem C1_theorem (m : Model) (beta : Nat → Nat → ℚ) (x : ℚ)
    (hne : m.cards ≠ []) (hz : ∀ w ∈ weightsOf m beta, w = 0) :
    choose_card m beta x = Except.error ("AllWeightsZero") := by
  apply choose_card_all_zero m beta x _ hz
  intro hw
  apply hne
  have := weightsOf_length m beta
  rw [hw] at this
  exact List.length_eq_zero.mp (by simpa using this.symm)

/-- Claim C1 witness: the amended statement applied to the concrete
all-history model. -/
theorem C1_witness :
    choose_card allHistoryModel betaOne 0 = Except.error ("AllWeightsZero") :=
  C1_theorem allHistoryModel betaOne 0 (by decide) (by decide)

/-- Claim C2 counterexample: selection on an empty collection does not
return a "no current card" sentinel; WeightedIndex::new returns NoItem
and the unwrap panics. -/
theorem C2_counterexample :
    choose_card emptyModel betaOne 0 = Except.error ("NoItem") :=
  choose_card_empty emptyModel betaOne 0 rfl

/-- Claim C2 (amended): with zero cards choose_card fails (NoItem panic)
instead of returning a sentinel; with exactly one card it returns position
0 whenever the rng draw lies in [0, total weight) — in particular whenever
the single card's weight is positive. -/
theorem C2_theorem (m : Model) (beta : Nat → Nat → ℚ) (x : ℚ) :
    (m.cards = [] → choose_card m beta x = Except.error ("NoItem")) ∧
    (∀ c, m.cards = [c] → 0 ≤ x → x < (weightsOf m beta).sum →
      choose_card m beta x = Except.ok 0) := by
  constructor
  · intro hc
    exact choose_card_empty m beta x hc
  · intro c hc hx0 hxs
    have hlen : (weightsOf m beta).length = 1 := by
      rw [weightsOf_length, hc]
      rfl
    obtain ⟨w, hw⟩ := List.length_eq_one.mp hlen
    have hsum : (weightsOf m beta).sum = w := by rw [hw]; simp
    have hxw : x < w := by rw [hsum] at hxs; exact hxs
    have hwpos : 0 < w := lt_of_le_of_lt hx0 hxw
    have hok := choose_card_eq_ok m beta x (by rw [hw]; simp)
      (by
        intro v hv
        rw [hw] at hv
        simp only [List.mem_singleton] at hv
        rw [hv]
        exact le_of_lt hwpos)
      (by rw [hsum]; exact ne_of_gt hwpos)
    rw [hok, hw]
    simp [sampleWeighted, hxw]

/-- Claim C2 witness: the amended statement applied to the empty model and
to a one-card model with weight 1. -/
theorem C2_witness :
    choose_card emptyModel betaOne 0 = Except.error ("NoItem") ∧
    choose_card oneCardModel betaOne 0 = Except.ok 0 :=
  ⟨(C2_theorem emptyModel betaOne 0).1 rfl,
   (C2_theorem oneCardModel betaOne 0).2 exampleCard rfl (by norm_num)
     (by rw [oneCardModel_weights]; norm_num)⟩

/-- Claim C3 counterexample: with preferMissed off (and preferNeglected
off), a card position in the history window keeps weight 1 rather than 0,
and the weighted draw can return it: position 0 is in the history yet is
drawn. -/
theorem C3_counterexample :
    historyDrawModel.display_history = [0] ∧
    weightsOf historyDrawModel betaOne = [1, 1] ∧
    choose_card historyDrawModel betaOne 0 = Except.ok 0 := by
  refine ⟨rfl, historyDrawModel_weights, ?_⟩
  unfold choose_card
  rw [historyDrawModel_weights, if_neg (by simp), if_neg (by norm_num),
    if_neg (by norm_num)]
  simp [sampleWeighted]

/-- Claim C3 (amended): only when preferMissed is on and preferNeglected
is off does a history-window index i get final weight 0; in that case,
for any rng draw in [0, total weight) the selection never returns i. -/
theorem C3_theorem (m : Model) (beta : Nat → Nat → ℚ) (x : ℚ) (i : Nat)
    (hm : m.choose_missed = true) (hn : m.choose_neglected = false)
    (hmem : i ∈ m.display_history) (hi : i < m.cards.length)
    (hbeta : ∀ a b, 0 ≤ beta a b) (hx0 : 0 ≤ x)
    (hxs : x < (weightsOf m beta).sum) :
    ∃ j, choose_card m beta x = Except.ok j ∧ j ≠ i := by
  have hnn := weightsOf_nonneg m beta hbeta
  have hslen : i < (weightsOf m beta).length := by
    rw [weightsOf_length]
    exact hi
  have hne : weightsOf m beta ≠ [] := by
    intro hw
    rw [hw] at hslen
    exact absurd hslen (by simp)
  have hsne : (weightsOf m beta).sum ≠ 0 := by
    intro h0
    rw [h0] at hxs
    exact absurd (lt_of_le_of_lt hx0 hxs) (lt_irrefl 0)
  have hz : (weightsOf m beta).getD i 1 = 0 := by
    rw [List.getD_eq_getElem _ _ hslen, ← List.getD_eq_getElem _ 0 hslen,
      weightsOf_getD m beta i hi]
    unfold weightAt
    rw [hm, hn]
    simp [hmem]
  refine ⟨sampleWeighted (weightsOf m beta) x,
    choose_card_eq_ok m beta x hne hnn hsne, ?_⟩
  exact sampleWeighted_ne (weightsOf m beta) x i hnn hx0 hxs hslen hz

/-- Claim C3 witness: the amended statement applied to a two-card model
whose history window holds position 0, with preferMissed on. -/
theorem C3_witness :
    ∃ j, choose_card exclusionModel betaOne 0 = Except.ok j ∧ j ≠ 0 :=
  C3_theorem exclusionModel betaOne 0 0 rfl rfl (by decide) (by decide)
    (fun _ _ => by norm_num [betaOne]) (by norm_num)
    (by rw [exclusionModel_weights]; norm_num)

/-- Claim C4 counterexample: a successfully parsed import replaces the
collection and re-derives the current position, but leaves the stale
history window entry [0] in place instead of clearing it. -/
theorem C4_counterexample :
    storeNewCards (fun _ => Except.ok [cardHit1]) betaOne 0 importModel ("[]") =
      Except.ok importedModel ∧
    importedModel.display_history ≠ [] := by
  constructor
  · unfold storeNewCards
    simp only [importModel_choose]
    rfl
  · simp [importedModel]

/-- Claim C4 (amended): on an import whose JSON parses and whose fresh
selection call succeeds, the whole collection is replaced and the current
position is re-derived by that fresh choose_card call, but the history
window is NOT cleared: it is carried over unchanged. -/
theorem C4_theorem (parse : String → Except String (List Card))
    (beta : Nat → Nat → ℚ) (x : ℚ) (m : Model) (json : String)
    (cards : List Card) (c : Nat)
    (hp : parse json = Except.ok cards)
    (hcc : choose_card { m with cards := cards } beta x = Except.ok c) :
    ∃ m2, storeNewCards parse beta x m json = Except.ok m2 ∧
      m2.cards = cards ∧ m2.current_card = some c ∧
      m2.display_history = m.display_history := by
  refine ⟨{ m with cards := cards, current_card := some c }, ?_, rfl, rfl, rfl⟩
  unfold storeNewCards
  simp only [hp, hcc]

/-- Claim C4 witness: the amended statement applied to the concrete
import. -/
theorem C4_witness :
    ∃ m2, storeNewCards (fun _ => Except.ok [cardHit1]) betaOne 0 importModel
        ("[]") = Except.ok m2 ∧
      m2.cards = [cardHit1] ∧ m2.current_card = some 0 ∧
      m2.display_history = importModel.display_history :=
  C4_theorem (fun _ => Except.ok [cardHit1]) betaOne 0 importModel ("[]")
    [cardHit1] 0 rfl importModel_choose

/-- Claim C5: when the uploaded JSON fails to parse, the StoreNewCards
handler leaves the card collection and the current position (indeed every
model field except upload_error) unchanged, and reports the parse error
message. -/
theorem C5_theorem (parse : String → Except String (List Card))
    (beta : Nat → Nat → ℚ) (x : ℚ) (m : Model) (json : String) (e : String)
    (hp : parse json = Except.error e) :
    storeNewCards parse beta x m json =
      Except.ok { m with upload_error := some e } := by
  unfold storeNewCards
  simp only [hp]

/-- Claim C5 witness: the statement applied to a concretely failing
parse. -/
theorem C5_witness :
    storeNewCards (fun _ => Except.error ("expected value at line 1"))
        betaOne 0 importModel ("oops") =
      Except.ok { importModel with
        upload_error := some ("expected value at line 1") } :=
  C5_theorem (fun _ => Except.error ("expected value at line 1")) betaOne 0
    importModel ("oops") ("expected value at line 1") rfl

/-- Claim C6: an executed deletion (deletion_target already armed at i)
clears the history window, removes the card at i, and remaps the current
position: equal → none, greater → decremented, less → unchanged. -/
theorem C6_theorem (m : Model) (i : Nat)
    (ht : m.deletion_target = some i) (_hi : i < m.cards.length) :
    (deleteCard m i).display_history = [] ∧
    (deleteCard m i).cards = m.cards.eraseIdx i ∧
    (m.current_card = some i → (deleteCard m i).current_card = none) ∧
    (∀ c, m.current_card = some c → i < c →
      (deleteCard m i).current_card = some (c - 1)) ∧
    (∀ c, m.current_card = some c → c < i →
      (deleteCard m i).current_card = some c) := by
  unfold deleteCard
  rw [if_pos ht]
  refine ⟨rfl, rfl, ?_, ?_, ?_⟩
  · intro hcur
    simp [hcur]
  · intro c hcur hlt
    have hne : ¬ c = i := by omega
    simp [hcur, hne, hlt]
  · intro c hcur hlt
    have hne : ¬ c = i := by omega
    have hnlt : ¬ i < c := by omega
    simp [hcur, hne, hnlt]

/-- Claim C6 witness: the statement applied to a three-card model with the
deletion of position 1 armed and current position 2. -/
theorem C6_witness :
    (deleteCard deleteModel 1).display_history = [] ∧
    (deleteCard deleteModel 1).cards = deleteModel.cards.eraseIdx 1 ∧
    (deleteCard deleteModel 1).current_card = some 1 := by
  obtain ⟨h1, h2, _, h4, _⟩ := C6_theorem deleteModel 1 rfl (by decide)
  exact ⟨h1, h2, h4 2 rfl (by decide)⟩

/-- Claim C7: a save succeeds exactly when the backing store's current
contents hash to the checksum recorded at the last load/save; on success
the stored contents are replaced in full by the new value (and the cached
checksum updated); otherwise the save returns an error and the backing
store is left unchanged. -/
theorem C7_theorem (hash : String → String) (store : Option String)
    (s : LocalStore) (value data : String) (hs : store = some data) :
    ((LocalStore.save hash store s value).2.isOk = true ↔
      hash data = s.checksum) ∧
    (hash data = s.checksum →
      LocalStore.save hash store s value =
        (some value, Except.ok { s with value := value, checksum := hash value })) ∧
    (hash data ≠ s.checksum →
      (LocalStore.save hash store s value).1 = store ∧
      (LocalStore.save hash store s value).2.isOk = false) := by
  subst hs
  have hsave : LocalStore.save hash (some data) s value =
      (if hash data = s.checksum then
         (some value,
           Except.ok { s with value := value, checksum := hash value })
       else
         (some data,
           Except.error
             ("local storage has been changed since last loaded (from:"
               ++ s.checksum ++ " to:" ++ hash data ++ ")"))) := rfl
  rw [hsave]
  by_cases h : hash data = s.checksum
  · rw [if_pos h]
    refine ⟨?_, fun _ => rfl, fun hne => absurd h hne⟩
    simp [Except.isOk, Except.toBool, h]
  · rw [if_neg h]
    refine ⟨?_, fun heq => absurd heq h, fun _ => ⟨rfl, rfl⟩⟩
    simp [Except.isOk, Except.toBool, h]

/-- Claim C7 witness: the statement applied to an identity digest and a
store whose contents still match the recorded checksum: the save succeeds
and replaces the contents. -/
theorem C7_witness :
    LocalStore.save idHash (some ("abc")) demoStore ("new") =
      (some ("new"),
        Except.ok { demoStore with value := "new", checksum := idHash ("new") }) :=
  (C7_theorem idHash (some ("abc")) demoStore ("new") ("abc") rfl).2.1 rfl

/-- Claim C8 counterexample: for a single card with one hit and no misses,
the overall score displayed by main.rs's stats_html is 1 (the bare mean of
goodness), not 100 × mean(goodness) = 100 as the specification states. -/
theorem C8_counterexample :
    overall_score_main false [cardHit1] ≠ specOverallScore false [cardHit1] := by
  rw [overall_score_main_eq]
  simp only [specOverallScore, mean, goodness, hits_misses, cardHit1,
    List.map_cons, List.map_nil]
  norm_num

/-- Claim C8 (amended): the overall score of main.rs's stats_html equals
the bare mean of goodness over all cards (0 for an empty collection,
unvisited cards contributing 0), with no factor of 100; the components.rs
Stats variant reports 100 × mean(goodness) for a non-empty collection. -/
theorem C8_theorem (rev : Bool) (crit : ℚ) (cards : List Card) :
    overall_score_main rev cards = mean (cards.map (goodness rev)) ∧
    (cards ≠ [] →
      (stats_components rev crit cards).map Prod.fst =
        some (specOverallScore rev cards)) := by
  refine ⟨overall_score_main_eq rev cards, fun hc => ?_⟩
  rw [stats_components_eq rev crit cards hc]
  rfl

/-- Claim C8 witness: the amended statement applied to the one-card
deck. -/
theorem C8_witness :
    overall_score_main false [cardHit1] =
      mean ([cardHit1].map (goodness false)) ∧
    (stats_components false 1 [cardHit1]).map Prod.fst =
      some (specOverallScore false [cardHit1]) :=
  ⟨(C8_theorem false 1 [cardHit1]).1,
   (C8_theorem false 1 [cardHit1]).2 (by simp)⟩

/-- Claim C9 counterexample: a card with 39 hits and 1 miss has goodness
exactly 38/40 = 0.95; main.rs's stats_html, which requires goodness
strictly greater than 0.95, reports 0% known well, while the
specification's ≥-comparison at threshold 0.95 yields 100%. -/
theorem C9_counterexample :
    percent_good_main false [card95] ≠
      specPercentKnownWell false (19/20) [card95] := by
  rw [percent_good_main_eq]
  simp only [specPercentKnownWell, card95, goodness, hits_misses,
    List.countP_cons, List.countP_nil, List.length_cons, List.length_nil]
  norm_num

/-- Claim C9 (amended): main.rs's stats_html computes the known-well
percentage with a strict comparison against the hardcoded 0.95 (100 ×
count(visits > 1 and goodness > 0.95) / totalCards); the components.rs
Stats variant uses goodness ≥ threshold with its configurable threshold,
matching the specification's formula. -/
theorem C9_theorem (rev : Bool) (crit : ℚ) (cards : List Card) :
    percent_good_main rev cards =
      (if cards = [] then 0
       else
         100 * ((cards.countP (fun c =>
             decide (1 < (hits_misses rev c).1 + (hits_misses rev c).2) &&
             decide ((19 : ℚ) / 20 < goodness rev c)) : ℚ)
           / ((cards.length : ℕ) : ℚ))) ∧
    (cards ≠ [] →
      (stats_components rev crit cards).map Prod.snd =
        some (specPercentKnownWell rev crit cards)) := by
  refine ⟨percent_good_main_eq rev cards, fun hc => ?_⟩
  rw [stats_components_eq rev crit cards hc]
  rfl

/-- Claim C9 witness: the amended statement's components.rs part applied
to the 39-hit 1-miss deck at threshold 19/20. -/
theorem C9_witness :
    (stats_components false (19/20) [card95]).map Prod.snd =
      some (specPercentKnownWell false (19/20) [card95]) :=
  (C9_theorem false (19/20) [card95]).2 (by simp)

/-- Claim C10: the DeleteCard handler removes the card only when the armed
deletion target already equals the requested position; a first request on
a position only records it as the pending target and leaves the cards,
history window and current position unchanged. -/
theorem C10_theorem (m : Model) (i : Nat) :
    (m.deletion_target = some i →
      (deleteCard m i).cards = m.cards.eraseIdx i ∧
      (deleteCard m i).deletion_target = none) ∧
    (m.deletion_target ≠ some i →
      deleteCard m i = { m with deletion_target := some i }) := by
  constructor
  · intro ht
    unfold deleteCard
    rw [if_pos ht]
    exact ⟨rfl, rfl⟩
  · intro ht
    unfold deleteCard
    rw [if_neg ht]

/-- Claim C10 witness: the statement applied to an armed model (the card
is removed) and to an unarmed model (only the target is recorded). -/
theorem C10_witness :
    ((deleteCard deleteModel 1).cards = deleteModel.cards.eraseIdx 1 ∧
      (deleteCard deleteModel 1).deletion_target = none) ∧
    deleteCard armModel 0 = { armModel with deletion_target := some 0 } :=
  ⟨(C10_theorem deleteModel 1).1 rfl,
   (C10_theorem armModel 0).2 (by decide)⟩

end Memoradical
